import Mathlib

/-!
Shallow embedding of `src/stake_accounts.rs` from the solana-stake-accounts
repository, together with theorems checking the natural-language specification
against it.

Modelling conventions:
* A `Pubkey` is its 32-byte content, modelled as a `List Nat` of byte values.
* The cryptographic digest `hashv` from the external SDK hashes the
  concatenation of the byte slices it is given; it is kept abstract as a
  parameter `hashv : List Nat → List Nat` of every derivation function.
* The fixed staking program identifier `solana_stake_program::id()` is an
  opaque external constant, likewise kept as a parameter `spid`.
* Rust `usize` / `u64` values are `Nat`; the 64-bit range enters only as an
  explicit hypothesis where a claim restricts indices to 64 bits.
* `i.to_string()` is the ASCII decimal representation, modelled byte-for-byte
  by `decimalBytes`.
* Fallible Rust code (`Result`) becomes `Except`; the `unwrap()` in
  `derive_stake_account_address` maps the (provably unreachable for 64-bit
  indices) error branch to a junk value.
-/

namespace StakeAccounts

/-- A public key: an opaque 32-byte identifier, modelled by its byte list. -/
structure Pubkey where
  bytes : List Nat
deriving DecidableEq, Repr

/-- `pub const MAX_SEED_LEN: usize = 32;` -/
def MAX_SEED_LEN : Nat := 32

/-- The single error kind of the core (`enum PubkeyError`). -/
inductive PubkeyError where
  | MaxSeedLengthExceeded
deriving DecidableEq, Repr

/-- `StakeAuthorize` role selector from the staking program. -/
inductive StakeAuthorize where
  | Staker
  | Withdrawer
deriving DecidableEq, Repr

/-- `Authorized { staker, withdrawer }` from the staking program. -/
structure Authorized where
  staker : Pubkey
  withdrawer : Pubkey
deriving DecidableEq, Repr

/-- `Lockup` policy from the staking program. -/
structure Lockup where
  unix_timestamp : Int
  epoch : Nat
  custodian : Pubkey
deriving DecidableEq, Repr

/-- `Lockup::default()`: the empty (unlocked) lockup. -/
def Lockup.default : Lockup := ⟨0, 0, ⟨List.replicate 32 0⟩⟩

/-- Instructions assembled by the core, as described by the spec contract for
the external staking program constructors. -/
inductive Instruction where
  | createAccountWithSeed (sender to_pubkey base : Pubkey) (seed : List Nat)
      (authorized : Authorized) (lockup : Lockup) (lamports : Nat)
  | split (stake_account authorized_pubkey : Pubkey) (lamports : Nat)
      (split_account new_authority : Pubkey) (seed : List Nat)
  | authorize (stake_account authorized_pubkey new_authorized : Pubkey)
      (role : StakeAuthorize)
deriving DecidableEq, Repr

/-- A `Message`: an ordered instruction batch plus a designated fee payer. -/
structure Message where
  instructions : List Instruction
  fee_payer : Option Pubkey
deriving DecidableEq, Repr

/-- `Message::new_with_payer(&instructions, Some(payer))`. -/
def Message.new_with_payer (instructions : List Instruction)
    (payer : Option Pubkey) : Message :=
  ⟨instructions, payer⟩

/-- Decimal digits of `n` (most significant first), computed with fuel; with
fuel above `n` this is the usual decimal representation, matching Rust's
`to_string`. -/
def decDigitsAux : Nat → Nat → List Nat
  | 0, _ => []
  | fuel + 1, n =>
    if n < 10 then [n] else decDigitsAux fuel (n / 10) ++ [n % 10]

/-- Decimal digits of `n`, most significant first; `decDigits 0 = [0]`. -/
def decDigits (n : Nat) : List Nat := decDigitsAux (n + 1) n

/-- The ASCII bytes of `i.to_string()`: each decimal digit `d` is byte
`48 + d`. -/
def decimalBytes (n : Nat) : List Nat := (decDigits n).map (fun d => 48 + d)

/-- `create_with_seed(base, seed, program_id)`: rejects seeds longer than
`MAX_SEED_LEN` bytes, otherwise derives the address as the digest of
`base ‖ seed ‖ program_id` (the SDK `hashv` hashes the concatenation of the
slices it receives). -/
def create_with_seed (hashv : List Nat → List Nat) (base : Pubkey)
    (seed : List Nat) (program_id : Pubkey) : Except PubkeyError Pubkey :=
  if seed.length > MAX_SEED_LEN then
    Except.error PubkeyError.MaxSeedLengthExceeded
  else
    Except.ok ⟨hashv (base.bytes ++ seed ++ program_id.bytes)⟩

/-- `derive_stake_account_address(base_pubkey, i)`: seeds with the decimal
string of `i` and the fixed staking program id, then unwraps.  The `unwrap()`
aborts on the error branch; that branch is modelled by a junk value and proved
unreachable for 64-bit indices. -/
def derive_stake_account_address (hashv : List Nat → List Nat) (spid : Pubkey)
    (base_pubkey : Pubkey) (i : Nat) : Pubkey :=
  match create_with_seed hashv base_pubkey (decimalBytes i) spid with
  | Except.ok pk => pk
  | Except.error _ => ⟨[]⟩

/-- `derive_stake_account_addresses(base_pubkey, num_accounts)`: the derived
addresses for indices `0, …, num_accounts - 1`, in index order. -/
def derive_stake_account_addresses (hashv : List Nat → List Nat) (spid : Pubkey)
    (base_pubkey : Pubkey) (num_accounts : Nat) : List Pubkey :=
  (List.range num_accounts).map
    (fun i => derive_stake_account_address hashv spid base_pubkey i)

/-- Modelled from the spec: `stake_instruction::create_account_with_seed` lives
in the external staking program crate, not in this repository.  Per the spec
(AccountFactory), it produces one instruction that atomically allocates the
seeded account, funds it with `lamports`, sets its owner to the staking
program, and installs the authorities and lockup. -/
def stake_instruction.create_account_with_seed (sender to_pubkey base : Pubkey)
    (seed : List Nat) (authorized : Authorized) (lockup : Lockup)
    (lamports : Nat) : List Instruction :=
  [Instruction.createAccountWithSeed sender to_pubkey base seed authorized
    lockup lamports]

/-- Modelled from the spec: `stake_instruction::authorize` lives in the
external staking program crate; it builds the single instruction that changes
one authority role on one stake account. -/
def stake_instruction.authorize (stake_account_address : Pubkey)
    (authorized_pubkey new_authorized_pubkey : Pubkey)
    (role : StakeAuthorize) : Instruction :=
  Instruction.authorize stake_account_address authorized_pubkey
    new_authorized_pubkey role

/-- Modelled from the spec: `stake_instruction::split_with_seed` lives in the
external staking program crate.  Per the spec (AccountMigrator), the split is
one instruction that moves `lamports` out of the source account into the newly
seeded destination account, creating the destination as owned by the staking
program.  The argument order mirrors the call site in the source. -/
def stake_instruction.split_with_seed (stake_account_address : Pubkey)
    (authorized_pubkey : Pubkey) (lamports : Nat)
    (split_stake_account new_authority : Pubkey) (seed : List Nat) :
    List Instruction :=
  [Instruction.split stake_account_address authorized_pubkey lamports
    split_stake_account new_authority seed]

/-- `new_stake_account(...)`: the one-time creation batch at derivation
index 0. -/
def new_stake_account (hashv : List Nat → List Nat) (spid : Pubkey)
    (fee_payer_pubkey sender_pubkey base_pubkey : Pubkey) (lamports : Nat)
    (stake_authority_pubkey withdraw_authority_pubkey : Pubkey) : Message :=
  let seed : Nat := 0
  let stake_account_address :=
    derive_stake_account_address hashv spid base_pubkey seed
  let authorized : Authorized :=
    { staker := stake_authority_pubkey, withdrawer := withdraw_authority_pubkey }
  let instructions := stake_instruction.create_account_with_seed sender_pubkey
    stake_account_address base_pubkey (decimalBytes seed) authorized
    Lockup.default lamports
  Message.new_with_payer instructions (some fee_payer_pubkey)

/-- `authorize_stake_accounts_instructions(...)`: the two authorize
instructions (staker first, withdrawer second) for one stake account. -/
def authorize_stake_accounts_instructions (stake_account_address : Pubkey)
    (stake_authority_pubkey withdraw_authority_pubkey : Pubkey)
    (new_stake_authority_pubkey new_withdraw_authority_pubkey : Pubkey) :
    List Instruction :=
  let instruction0 := stake_instruction.authorize stake_account_address
    stake_authority_pubkey new_stake_authority_pubkey StakeAuthorize.Staker
  let instruction1 := stake_instruction.authorize stake_account_address
    withdraw_authority_pubkey new_withdraw_authority_pubkey
    StakeAuthorize.Withdrawer
  [instruction0, instruction1]

/-- `move_stake_account(...)`: one migration batch, splitting `lamports` from
the source account into the address derived at index `i` under the new base,
then re-authorizing both roles on the destination. -/
def move_stake_account (hashv : List Nat → List Nat) (spid : Pubkey)
    (stake_account_address new_base_pubkey : Pubkey) (i : Nat)
    (fee_payer_pubkey : Pubkey)
    (stake_authority_pubkey withdraw_authority_pubkey : Pubkey)
    (new_stake_authority_pubkey new_withdraw_authority_pubkey : Pubkey)
    (lamports : Nat) : Message :=
  let new_stake_account_address :=
    derive_stake_account_address hashv spid new_base_pubkey i
  let instructions := stake_instruction.split_with_seed stake_account_address
    stake_authority_pubkey lamports new_stake_account_address
    new_stake_authority_pubkey (decimalBytes i)
  let authorize_instructions := authorize_stake_accounts_instructions
    new_stake_account_address stake_authority_pubkey withdraw_authority_pubkey
    new_stake_authority_pubkey new_withdraw_authority_pubkey
  Message.new_with_payer (instructions ++ authorize_instructions)
    (some fee_payer_pubkey)

/-- `authorize_stake_accounts(...)`: one two-instruction rotation batch per
derived address for indices `0, …, num_accounts - 1`. -/
def authorize_stake_accounts (hashv : List Nat → List Nat) (spid : Pubkey)
    (fee_payer_pubkey base_pubkey : Pubkey)
    (stake_authority_pubkey withdraw_authority_pubkey : Pubkey)
    (new_stake_authority_pubkey new_withdraw_authority_pubkey : Pubkey)
    (num_accounts : Nat) : List Message :=
  let stake_account_addresses :=
    derive_stake_account_addresses hashv spid base_pubkey num_accounts
  stake_account_addresses.map (fun stake_account_address =>
    let instructions := authorize_stake_accounts_instructions
      stake_account_address stake_authority_pubkey withdraw_authority_pubkey
      new_stake_authority_pubkey new_withdraw_authority_pubkey
    Message.new_with_payer instructions (some fee_payer_pubkey))

/-- `move_stake_accounts(...)`: one migration batch per `(source, lamports)`
entry, index-aligned with the enumeration of `balances`. -/
def move_stake_accounts (hashv : List Nat → List Nat) (spid : Pubkey)
    (fee_payer_pubkey new_base_pubkey : Pubkey)
    (stake_authority_pubkey withdraw_authority_pubkey : Pubkey)
    (new_stake_authority_pubkey new_withdraw_authority_pubkey : Pubkey)
    (balances : List (Pubkey × Nat)) : List Message :=
  balances.enum.map (fun p =>
    move_stake_account hashv spid p.2.1 new_base_pubkey p.1 fee_payer_pubkey
      stake_authority_pubkey withdraw_authority_pubkey
      new_stake_authority_pubkey new_withdraw_authority_pubkey p.2.2)

/-! ### Helper lemmas on the decimal representation -/

/-- The numeric value of a digit list, most significant digit first. -/
def decVal (ds : List Nat) : Nat := ds.foldl (fun a d => a * 10 + d) 0

theorem decVal_append_digit (xs : List Nat) (d : Nat) :
    decVal (xs ++ [d]) = 10 * decVal xs + d := by
  simp only [decVal, List.foldl_append, List.foldl_cons, List.foldl_nil]
  omega

theorem decVal_decDigitsAux (fuel : Nat) :
    ∀ n : Nat, n < fuel → decVal (decDigitsAux fuel n) = n := by
  induction fuel with
  | zero => intro n h; omega
  | succ fuel ih =>
    intro n h
    rw [decDigitsAux]
    split
    · simp [decVal]
    · rename_i hn
      rw [decVal_append_digit, ih (n / 10) (by omega)]
      omega

theorem decVal_decDigits (n : Nat) : decVal (decDigits n) = n :=
  decVal_decDigitsAux (n + 1) n (Nat.lt_succ_self n)

theorem decDigits_injective : Function.Injective decDigits := by
  intro a b h
  have ha := decVal_decDigits a
  rw [h, decVal_decDigits] at ha
  omega

theorem decimalBytes_injective : Function.Injective decimalBytes := by
  intro a b h
  simp only [decimalBytes] at h
  have hmap : Function.Injective (fun d : Nat => 48 + d) := by
    intro x y hxy
    simp only at hxy
    omega
  exact decDigits_injective (List.map_injective_iff.mpr hmap h)

theorem decDigitsAux_length_le (fuel : Nat) :
    ∀ n d : Nat, n < fuel → n < 10 ^ (d + 1) →
      (decDigitsAux fuel n).length ≤ d + 1 := by
  induction fuel with
  | zero => intro n d h hd; omega
  | succ fuel ih =>
    intro n d h hd
    rw [decDigitsAux]
    split
    · simp
    · rename_i hn
      cases d with
      | zero =>
        exfalso
        have : (10 : Nat) ^ (0 + 1) = 10 := by norm_num
        omega
      | succ d =>
        simp only [List.length_append, List.length_cons, List.length_nil]
        have hpow : (10 : Nat) ^ (d + 1 + 1) = 10 ^ (d + 1) * 10 := by ring
        have hdiv : n / 10 < 10 ^ (d + 1) := by omega
        have := ih (n / 10) d (by omega) hdiv
        omega

/-- The decimal representation of a 64-bit index is at most 20 bytes. -/
theorem decimalBytes_length_le (n : Nat) (h : n < 2 ^ 64) :
    (decimalBytes n).length ≤ 20 := by
  have h20 : n < 10 ^ (19 + 1) := lt_of_lt_of_le h (by norm_num)
  have := decDigitsAux_length_le (n + 1) n 19 (Nat.lt_succ_self n) h20
  simpa [decimalBytes, decDigits] using this

/-! ### Helper lemmas on derivation -/

theorem create_with_seed_ok (hashv : List Nat → List Nat) (base : Pubkey)
    (seed : List Nat) (program_id : Pubkey) (h : seed.length ≤ MAX_SEED_LEN) :
    create_with_seed hashv base seed program_id =
      Except.ok ⟨hashv (base.bytes ++ seed ++ program_id.bytes)⟩ := by
  unfold create_with_seed
  rw [if_neg (by omega : ¬ seed.length > MAX_SEED_LEN)]

theorem derive_eq_hash (hashv : List Nat → List Nat) (spid base : Pubkey)
    (i : Nat) (h : (decimalBytes i).length ≤ MAX_SEED_LEN) :
    derive_stake_account_address hashv spid base i =
      ⟨hashv (base.bytes ++ decimalBytes i ++ spid.bytes)⟩ := by
  unfold derive_stake_account_address
  rw [create_with_seed_ok hashv base (decimalBytes i) spid h]

/-! ### Theorems for the specification claims -/

/-- C3: `create_with_seed` fails with `MaxSeedLengthExceeded` if and only if
the seed is longer than 32 bytes; in particular any 32-byte seed succeeds and
any 33-byte seed fails, and on success the result is the digest of
base ‖ seed ‖ programId. -/
theorem create_with_seed_seed_length_spec (hashv : List Nat → List Nat)
    (base program_id : Pubkey) (seed : List Nat) :
    (create_with_seed hashv base seed program_id =
        Except.error PubkeyError.MaxSeedLengthExceeded ↔ 32 < seed.length) ∧
    (seed.length ≤ 32 →
      create_with_seed hashv base seed program_id =
        Except.ok ⟨hashv (base.bytes ++ seed ++ program_id.bytes)⟩) := by
  have hmax : MAX_SEED_LEN = 32 := rfl
  constructor
  · constructor
    · intro h
      by_contra hle
      rw [create_with_seed_ok hashv base seed program_id (by omega)] at h
      exact Except.noConfusion h
    · intro h
      unfold create_with_seed
      rw [if_pos (by omega : seed.length > MAX_SEED_LEN)]
  · intro h
    exact create_with_seed_ok hashv base seed program_id (by omega)

/-- Witness for C3: with the identity digest and empty keys, a 33-byte seed is
rejected and a 32-byte seed is accepted. -/
theorem create_with_seed_seed_length_spec_witness :
    create_with_seed (fun l => l) ⟨[]⟩ (List.replicate 33 48) ⟨[]⟩ =
        Except.error PubkeyError.MaxSeedLengthExceeded ∧
    create_with_seed (fun l => l) ⟨[]⟩ (List.replicate 32 48) ⟨[]⟩ =
        Except.ok ⟨[] ++ List.replicate 32 48 ++ []⟩ :=
  ⟨(create_with_seed_seed_length_spec (fun l => l) ⟨[]⟩ ⟨[]⟩
      (List.replicate 33 48)).1.mpr (by simp),
   (create_with_seed_seed_length_spec (fun l => l) ⟨[]⟩ ⟨[]⟩
      (List.replicate 32 48)).2 (by simp)⟩

/-- C4: `derive_stake_account_address` never fails for a 64-bit index: the
decimal seed is at most 20 bytes, within the 32-byte limit, so the inner
`create_with_seed` succeeds and the unwrapped value is the derived address. -/
theorem derive_stake_account_address_never_fails (hashv : List Nat → List Nat)
    (spid base : Pubkey) (i : Nat) (h : i < 2 ^ 64) :
    (decimalBytes i).length ≤ 20 ∧
    create_with_seed hashv base (decimalBytes i) spid =
      Except.ok (derive_stake_account_address hashv spid base i) := by
  have hlen := decimalBytes_length_le i h
  have hmax : MAX_SEED_LEN = 32 := rfl
  refine ⟨hlen, ?_⟩
  rw [derive_eq_hash hashv spid base i (by omega),
    create_with_seed_ok hashv base (decimalBytes i) spid (by omega)]

/-- Witness for C4 at the largest 64-bit index. -/
theorem derive_stake_account_address_never_fails_witness :
    (decimalBytes 18446744073709551615).length ≤ 20 ∧
    create_with_seed (fun l => l) ⟨[]⟩ (decimalBytes 18446744073709551615)
        ⟨[]⟩ =
      Except.ok (derive_stake_account_address (fun l => l) ⟨[]⟩ ⟨[]⟩
        18446744073709551615) :=
  derive_stake_account_address_never_fails (fun l => l) ⟨[]⟩ ⟨[]⟩
    18446744073709551615 (by norm_num)

/-- C7: `derive_stake_account_address` is deterministic — it is a pure
function of its inputs, so any two calls on equal inputs return the identical
address. -/
theorem derive_stake_account_address_deterministic (hashv : List Nat → List Nat)
    (spid base1 base2 : Pubkey) (i j : Nat) (hb : base1 = base2)
    (hij : i = j) :
    derive_stake_account_address hashv spid base1 i =
      derive_stake_account_address hashv spid base2 j := by
  rw [hb, hij]

/-- Witness for C7 at concrete inputs. -/
theorem derive_stake_account_address_deterministic_witness :
    derive_stake_account_address (fun l => l) ⟨[]⟩ ⟨[3]⟩ 5 =
      derive_stake_account_address (fun l => l) ⟨[]⟩ ⟨[3]⟩ 5 :=
  derive_stake_account_address_deterministic (fun l => l) ⟨[]⟩ ⟨[3]⟩ ⟨[3]⟩ 5 5
    rfl rfl

/-- C8: for a fixed base and an injective (collision-free) digest, distinct
64-bit indices derive distinct addresses. -/
theorem derive_stake_account_address_distinct (hashv : List Nat → List Nat)
    (spid base : Pubkey) (hinj : Function.Injective hashv) (i j : Nat)
    (hi : i < 2 ^ 64) (hj : j < 2 ^ 64) (hne : i ≠ j) :
    derive_stake_account_address hashv spid base i ≠
      derive_stake_account_address hashv spid base j := by
  have hmax : MAX_SEED_LEN = 32 := rfl
  have hleni := decimalBytes_length_le i hi
  have hlenj := decimalBytes_length_le j hj
  intro heq
  rw [derive_eq_hash hashv spid base i (by omega),
    derive_eq_hash hashv spid base j (by omega)] at heq
  have h1 : hashv (base.bytes ++ decimalBytes i ++ spid.bytes) =
      hashv (base.bytes ++ decimalBytes j ++ spid.bytes) :=
    congrArg Pubkey.bytes heq
  have h2 := hinj h1
  have h3 := List.append_cancel_right h2
  have h4 := List.append_cancel_left h3
  exact hne (decimalBytes_injective h4)

/-- Witness for C8: with the identity digest (injective), indices 0 and 1
derive distinct addresses. -/
theorem derive_stake_account_address_distinct_witness :
    derive_stake_account_address (fun l => l) ⟨[]⟩ ⟨[]⟩ 0 ≠
      derive_stake_account_address (fun l => l) ⟨[]⟩ ⟨[]⟩ 1 :=
  derive_stake_account_address_distinct (fun l => l) ⟨[]⟩ ⟨[]⟩
    Function.injective_id 0 1 (by norm_num) (by norm_num) (by norm_num)

/-- C5: `derive_stake_account_addresses` returns exactly `n` addresses, the
one at index `i` being the address derived at index `i`; for `n = 3` the
result is the digests of base ‖ "0" ‖ P, base ‖ "1" ‖ P, base ‖ "2" ‖ P in
that order (48, 49, 50 are the ASCII bytes of the digits 0, 1, 2). -/
theorem derive_stake_account_addresses_spec (hashv : List Nat → List Nat)
    (spid base : Pubkey) (n i : Nat) (h : i < n) :
    (derive_stake_account_addresses hashv spid base n).length = n ∧
    (derive_stake_account_addresses hashv spid base n)[i]? =
      some (derive_stake_account_address hashv spid base i) ∧
    derive_stake_account_addresses hashv spid base 3 =
      [⟨hashv (base.bytes ++ [48] ++ spid.bytes)⟩,
       ⟨hashv (base.bytes ++ [49] ++ spid.bytes)⟩,
       ⟨hashv (base.bytes ++ [50] ++ spid.bytes)⟩] := by
  refine ⟨by simp [derive_stake_account_addresses], ?_, ?_⟩
  · simp [derive_stake_account_addresses, List.getElem?_range h]
  · have h0 := derive_eq_hash hashv spid base 0 (by decide)
    have h1 := derive_eq_hash hashv spid base 1 (by decide)
    have h2 := derive_eq_hash hashv spid base 2 (by decide)
    have hd0 : decimalBytes 0 = [48] := rfl
    have hd1 : decimalBytes 1 = [49] := rfl
    have hd2 : decimalBytes 2 = [50] := rfl
    rw [hd0] at h0
    rw [hd1] at h1
    rw [hd2] at h2
    have hr : List.range 3 = [0, 1, 2] := rfl
    simp [derive_stake_account_addresses, hr, h0, h1, h2]

/-- Witness for C5 at n = 2, i = 1 with the identity digest. -/
theorem derive_stake_account_addresses_spec_witness :
    (derive_stake_account_addresses (fun l => l) ⟨[]⟩ ⟨[]⟩ 2).length = 2 ∧
    (derive_stake_account_addresses (fun l => l) ⟨[]⟩ ⟨[]⟩ 2)[1]? =
      some (derive_stake_account_address (fun l => l) ⟨[]⟩ ⟨[]⟩ 1) ∧
    derive_stake_account_addresses (fun l => l) ⟨[]⟩ ⟨[]⟩ 3 =
      [⟨[] ++ [48] ++ []⟩, ⟨[] ++ [49] ++ []⟩, ⟨[] ++ [50] ++ []⟩] :=
  derive_stake_account_addresses_spec (fun l => l) ⟨[]⟩ ⟨[]⟩ 2 1 (by norm_num)

/-- C6: `new_stake_account` produces a single batch, paid by the fee payer,
holding the one creation instruction that allocates the account derived at
index 0 under the base key, funds it with the lamports, and installs the given
authorities and the default (empty) lockup. -/
theorem new_stake_account_spec (hashv : List Nat → List Nat)
    (spid fee_payer_pubkey sender_pubkey base_pubkey : Pubkey) (lamports : Nat)
    (stake_authority_pubkey withdraw_authority_pubkey : Pubkey) :
    new_stake_account hashv spid fee_payer_pubkey sender_pubkey base_pubkey
        lamports stake_authority_pubkey withdraw_authority_pubkey =
      Message.mk
        [Instruction.createAccountWithSeed sender_pubkey
          (derive_stake_account_address hashv spid base_pubkey 0) base_pubkey
          [48] (Authorized.mk stake_authority_pubkey withdraw_authority_pubkey)
          Lockup.default lamports]
        (some fee_payer_pubkey) := rfl

/-- C2: `authorize_stake_accounts` returns exactly `n` batches; the batch at
index `i` targets the address derived at index `i` and holds exactly the two
authorize instructions, staker rotation first, withdrawer rotation second,
paid by the fee payer. -/
theorem authorize_stake_accounts_spec (hashv : List Nat → List Nat)
    (spid fee_payer_pubkey base_pubkey : Pubkey)
    (stake_authority_pubkey withdraw_authority_pubkey : Pubkey)
    (new_stake_authority_pubkey new_withdraw_authority_pubkey : Pubkey)
    (n i : Nat) (h : i < n) :
    (authorize_stake_accounts hashv spid fee_payer_pubkey base_pubkey
        stake_authority_pubkey withdraw_authority_pubkey
        new_stake_authority_pubkey new_withdraw_authority_pubkey n).length =
      n ∧
    (authorize_stake_accounts hashv spid fee_payer_pubkey base_pubkey
        stake_authority_pubkey withdraw_authority_pubkey
        new_stake_authority_pubkey new_withdraw_authority_pubkey n)[i]? =
      some (Message.mk
        [Instruction.authorize
          (derive_stake_account_address hashv spid base_pubkey i)
          stake_authority_pubkey new_stake_authority_pubkey
          StakeAuthorize.Staker,
         Instruction.authorize
          (derive_stake_account_address hashv spid base_pubkey i)
          withdraw_authority_pubkey new_withdraw_authority_pubkey
          StakeAuthorize.Withdrawer]
        (some fee_payer_pubkey)) := by
  constructor
  · simp [authorize_stake_accounts, derive_stake_account_addresses]
  · simp [authorize_stake_accounts, derive_stake_account_addresses,
      List.getElem?_range h, authorize_stake_accounts_instructions,
      stake_instruction.authorize, Message.new_with_payer]

/-- Witness for C2 at n = 1, i = 0 with concrete keys. -/
theorem authorize_stake_accounts_spec_witness :
    (authorize_stake_accounts (fun l => l) ⟨[]⟩ ⟨[9]⟩ ⟨[]⟩ ⟨[1]⟩ ⟨[2]⟩ ⟨[3]⟩
        ⟨[4]⟩ 1).length = 1 ∧
    (authorize_stake_accounts (fun l => l) ⟨[]⟩ ⟨[9]⟩ ⟨[]⟩ ⟨[1]⟩ ⟨[2]⟩ ⟨[3]⟩
        ⟨[4]⟩ 1)[0]? =
      some (Message.mk
        [Instruction.authorize
          (derive_stake_account_address (fun l => l) ⟨[]⟩ ⟨[]⟩ 0) ⟨[1]⟩ ⟨[3]⟩
          StakeAuthorize.Staker,
         Instruction.authorize
          (derive_stake_account_address (fun l => l) ⟨[]⟩ ⟨[]⟩ 0) ⟨[2]⟩ ⟨[4]⟩
          StakeAuthorize.Withdrawer]
        (some ⟨[9]⟩)) :=
  authorize_stake_accounts_spec (fun l => l) ⟨[]⟩ ⟨[9]⟩ ⟨[]⟩ ⟨[1]⟩ ⟨[2]⟩ ⟨[3]⟩
    ⟨[4]⟩ 1 0 (by norm_num)

/-- C1: `move_stake_accounts` returns one batch per entry of `balances`; the
batch at index `i` holds exactly three instructions in order — the split of
the entry's lamports out of the entry's source address into the destination
derived at index `i` under the new base, then the staker authorization, then
the withdrawer authorization — paid by the fee payer. -/
theorem move_stake_accounts_spec (hashv : List Nat → List Nat)
    (spid fee_payer_pubkey new_base_pubkey : Pubkey)
    (stake_authority_pubkey withdraw_authority_pubkey : Pubkey)
    (new_stake_authority_pubkey new_withdraw_authority_pubkey : Pubkey)
    (balances : List (Pubkey × Nat)) (i : Nat) (h : i < balances.length) :
    (move_stake_accounts hashv spid fee_payer_pubkey new_base_pubkey
        stake_authority_pubkey withdraw_authority_pubkey
        new_stake_authority_pubkey new_withdraw_authority_pubkey
        balances).length = balances.length ∧
    (move_stake_accounts hashv spid fee_payer_pubkey new_base_pubkey
        stake_authority_pubkey withdraw_authority_pubkey
        new_stake_authority_pubkey new_withdraw_authority_pubkey
        balances)[i]? =
      some (Message.mk
        [Instruction.split (balances.get ⟨i, h⟩).1 stake_authority_pubkey
          (balances.get ⟨i, h⟩).2
          (derive_stake_account_address hashv spid new_base_pubkey i)
          new_stake_authority_pubkey (decimalBytes i),
         Instruction.authorize
          (derive_stake_account_address hashv spid new_base_pubkey i)
          stake_authority_pubkey new_stake_authority_pubkey
          StakeAuthorize.Staker,
         Instruction.authorize
          (derive_stake_account_address hashv spid new_base_pubkey i)
          withdraw_authority_pubkey new_withdraw_authority_pubkey
          StakeAuthorize.Withdrawer]
        (some fee_payer_pubkey)) := by
  constructor
  · simp [move_stake_accounts]
  · simp [move_stake_accounts, List.getElem?_enum,
      List.getElem?_eq_getElem h, move_stake_account,
      stake_instruction.split_with_seed, authorize_stake_accounts_instructions,
      stake_instruction.authorize, Message.new_with_payer]

/-- Witness for C1 at a one-entry balance list with concrete keys. -/
theorem move_stake_accounts_spec_witness :
    (move_stake_accounts (fun l => l) ⟨[]⟩ ⟨[9]⟩ ⟨[]⟩ ⟨[1]⟩ ⟨[2]⟩ ⟨[3]⟩ ⟨[4]⟩
        [(⟨[7]⟩, 1000)]).length = 1 ∧
    (move_stake_accounts (fun l => l) ⟨[]⟩ ⟨[9]⟩ ⟨[]⟩ ⟨[1]⟩ ⟨[2]⟩ ⟨[3]⟩ ⟨[4]⟩
        [(⟨[7]⟩, 1000)])[0]? =
      some (Message.mk
        [Instruction.split ⟨[7]⟩ ⟨[1]⟩ 1000
          (derive_stake_account_address (fun l => l) ⟨[]⟩ ⟨[]⟩ 0) ⟨[3]⟩
          (decimalBytes 0),
         Instruction.authorize
          (derive_stake_account_address (fun l => l) ⟨[]⟩ ⟨[]⟩ 0) ⟨[1]⟩ ⟨[3]⟩
          StakeAuthorize.Staker,
         Instruction.authorize
          (derive_stake_account_address (fun l => l) ⟨[]⟩ ⟨[]⟩ 0) ⟨[2]⟩ ⟨[4]⟩
          StakeAuthorize.Withdrawer]
        (some ⟨[9]⟩)) :=
  move_stake_accounts_spec (fun l => l) ⟨[]⟩ ⟨[9]⟩ ⟨[]⟩ ⟨[1]⟩ ⟨[2]⟩ ⟨[3]⟩ ⟨[4]⟩
    [(⟨[7]⟩, 1000)] 0 (by norm_num)

/-- C9: every batch produced by any of the three builders carries the
caller-supplied fee payer. -/
theorem builders_fee_payer_spec (hashv : List Nat → List Nat)
    (spid fee_payer_pubkey sender_pubkey base_pubkey new_base_pubkey : Pubkey)
    (lamports : Nat)
    (stake_authority_pubkey withdraw_authority_pubkey : Pubkey)
    (new_stake_authority_pubkey new_withdraw_authority_pubkey : Pubkey)
    (num_accounts : Nat) (balances : List (Pubkey × Nat)) :
    (new_stake_account hashv spid fee_payer_pubkey sender_pubkey base_pubkey
        lamports stake_authority_pubkey
        withdraw_authority_pubkey).fee_payer = some fee_payer_pubkey ∧
    (∀ m ∈ authorize_stake_accounts hashv spid fee_payer_pubkey base_pubkey
        stake_authority_pubkey withdraw_authority_pubkey
        new_stake_authority_pubkey new_withdraw_authority_pubkey num_accounts,
      m.fee_payer = some fee_payer_pubkey) ∧
    (∀ m ∈ move_stake_accounts hashv spid fee_payer_pubkey new_base_pubkey
        stake_authority_pubkey withdraw_authority_pubkey
        new_stake_authority_pubkey new_withdraw_authority_pubkey balances,
      m.fee_payer = some fee_payer_pubkey) := by
  refine ⟨rfl, ?_, ?_⟩
  · intro m hm
    simp only [authorize_stake_accounts, List.mem_map] at hm
    obtain ⟨a, _, hma⟩ := hm
    rw [← hma]
    rfl
  · intro m hm
    simp only [move_stake_accounts, List.mem_map] at hm
    obtain ⟨p, _, hmp⟩ := hm
    rw [← hmp]
    rfl

/-- Witness for C9: the single rotation batch built for n = 1 carries the
given fee payer. -/
theorem builders_fee_payer_spec_witness :
    (Message.mk
      [Instruction.authorize
        (derive_stake_account_address (fun l => l) ⟨[]⟩ ⟨[]⟩ 0) ⟨[1]⟩ ⟨[3]⟩
        StakeAuthorize.Staker,
       Instruction.authorize
        (derive_stake_account_address (fun l => l) ⟨[]⟩ ⟨[]⟩ 0) ⟨[2]⟩ ⟨[4]⟩
        StakeAuthorize.Withdrawer]
      (some ⟨[9]⟩)).fee_payer = some ⟨[9]⟩ :=
  (builders_fee_payer_spec (fun l => l) ⟨[]⟩ ⟨[9]⟩ ⟨[]⟩ ⟨[]⟩ ⟨[]⟩ 1 ⟨[1]⟩ ⟨[2]⟩
    ⟨[3]⟩ ⟨[4]⟩ 1 []).2.1 _ (by decide)

/-- C10: extending the range never changes what was already produced —
`derive_stake_account_addresses` at `n` is the `n`-prefix of the result at
`m ≥ n`, and likewise the first `n` rotation batches of
`authorize_stake_accounts` at `m` are exactly its result at `n`. -/
theorem range_take_spec (hashv : List Nat → List Nat)
    (spid fee_payer_pubkey base_pubkey : Pubkey)
    (stake_authority_pubkey withdraw_authority_pubkey : Pubkey)
    (new_stake_authority_pubkey new_withdraw_authority_pubkey : Pubkey)
    (n m : Nat) (h : n ≤ m) :
    (derive_stake_account_addresses hashv spid base_pubkey m).take n =
      derive_stake_account_addresses hashv spid base_pubkey n ∧
    (authorize_stake_accounts hashv spid fee_payer_pubkey base_pubkey
        stake_authority_pubkey withdraw_authority_pubkey
        new_stake_authority_pubkey new_withdraw_authority_pubkey m).take n =
      authorize_stake_accounts hashv spid fee_payer_pubkey base_pubkey
        stake_authority_pubkey withdraw_authority_pubkey
        new_stake_authority_pubkey new_withdraw_authority_pubkey n := by
  have hr : (List.range m).take n = List.range n := by
    rw [List.take_range, Nat.min_eq_left h]
  constructor
  · simp only [derive_stake_account_addresses, ← List.map_take, hr]
  · simp only [authorize_stake_accounts, derive_stake_account_addresses,
      ← List.map_take, hr]

/-- Witness for C10 at n = 1, m = 2 with concrete keys. -/
theorem range_take_spec_witness :
    (derive_stake_account_addresses (fun l => l) ⟨[]⟩ ⟨[]⟩ 2).take 1 =
      derive_stake_account_addresses (fun l => l) ⟨[]⟩ ⟨[]⟩ 1 ∧
    (authorize_stake_accounts (fun l => l) ⟨[]⟩ ⟨[9]⟩ ⟨[]⟩ ⟨[1]⟩ ⟨[2]⟩ ⟨[3]⟩
        ⟨[4]⟩ 2).take 1 =
      authorize_stake_accounts (fun l => l) ⟨[]⟩ ⟨[9]⟩ ⟨[]⟩ ⟨[1]⟩ ⟨[2]⟩ ⟨[3]⟩
        ⟨[4]⟩ 1 :=
  range_take_spec (fun l => l) ⟨[]⟩ ⟨[9]⟩ ⟨[]⟩ ⟨[1]⟩ ⟨[2]⟩ ⟨[3]⟩ ⟨[4]⟩ 1 2
    (by norm_num)

end StakeAccounts
